import Mathlib

/-
  Verification of the Sphere projection/tiling engine against its
  natural-language specification.

  The development shallowly embeds the relevant parts of the source:
    * src/backend/tools.py   — checkPairs, writeYAML, Projection, RunProjection
    * src/widgets/tab.py     — Tab.loadYAML
    * src/backend/basemap.py — interp (the resampler)

  Numbers are modelled by ℚ (the Python code manipulates floats; every
  claim below is settled on inputs where float and exact rational
  arithmetic agree).  Fallible Python code is modelled by Except with an
  explicit error type mirroring the Python exception classes raised.
-/

deriving instance DecidableEq for Except

/- Batteries marks the rational-number field operations irreducible, which
blocks `decide` on concrete rational computations; re-expose them. -/
attribute [local semireducible] Rat.mul Rat.add Rat.sub Rat.inv

/-! ## Python exceptions and values -/

/-- The Python exception classes that the modelled code can raise. -/
inductive PyErr where
  | typeError (msg : String)
  | valueError (msg : String)
  | ioError (msg : String)
  | keyError (key : String)
  | indexError (msg : String)

deriving DecidableEq, Repr

/-- A YAML scalar as stored in the manifest dictionary (a number or a string). -/
inductive YVal where
  | num (q : ℚ)
  | str (s : String)

deriving DecidableEq, Repr

/-- An argument fed to Python percent-formatting. -/
inductive FmtArg where
  | int (z : ℤ)
  | str (s : String)

deriving DecidableEq, Repr

/-- Number of conversion specifiers in a percent-format string
(the sources only use the forms that appear in tools.py / tab.py,
namely a percent sign followed by s or d, with no escaped percent). -/
def specCountAux : Bool → List Char → ℕ
  | _, [] => 0
  | afterPct, c :: rest =>
    if afterPct then (if c = 's' ∨ c = 'd' then 1 else 0) + specCountAux false rest
    else specCountAux (c = '%') rest

def specCount (s : String) : ℕ := specCountAux false s.toList

def renderFmtArg : FmtArg → String
  | .int z => toString z
  | .str s => s

/-- Substitute the arguments for the specifiers, left to right. -/
def substFmt : List Char → List FmtArg → List Char
  | [], _ => []
  | '%' :: c :: rest, a :: as =>
    if c = 's' ∨ c = 'd' then (renderFmtArg a).toList ++ substFmt rest as
    else '%' :: substFmt (c :: rest) (a :: as)
  | '%' :: c :: rest, [] => '%' :: substFmt (c :: rest) []
  | c :: rest, as => c :: substFmt rest as
termination_by l _ => l.length

/-- Python percent-formatting, `fmt % args`: raises TypeError when the
number of arguments does not match the number of specifiers. -/
def pyFormat (fmt : String) (args : List FmtArg) : Except PyErr String :=
  if args.length < specCount fmt then
    .error (.typeError ("not enough arguments for format string"))
  else if specCount fmt < args.length then
    .error (.typeError ("not all arguments converted during string formatting"))
  else .ok (String.mk (substFmt fmt.toList args))

/-! ## tools.py : checkPairs and writeYAML -/

/-- A Python value passed as `coordsInit`: a list, a tuple, or anything else. -/
inductive PyData where
  | list (xs : List ℚ)
  | tuple (xs : List ℚ)
  | other

deriving DecidableEq, Repr

def PyData.elems : PyData → List ℚ
  | .list xs => xs
  | .tuple xs => xs
  | .other => []

/-- tools.py `checkPairs` for the list/tuple branch: when the length is not 2
the code evaluates `'%s ... %d' % len(data)` — a format string with two
specifiers given a single (non-tuple) argument — so the formatting itself
raises TypeError and the intended ValueError is never constructed. -/
def checkPairsLen (xs : List ℚ) : Except PyErr Unit :=
  if xs.length ≠ 2 then
    match pyFormat ("%s must be a list or tuple of length 2 but current length is %d")
        [.int (xs.length : ℤ)] with
    | .error e => .error e
    | .ok msg => .error (.valueError msg)
  else .ok ()

/-- tools.py lines 14-31, `checkPairs(data, name)`. -/
def checkPairs (data : PyData) (name : String) : Except PyErr Unit :=
  match data with
  | .other =>
    match pyFormat ("%s must either be a list or a tuple.") [.str name] with
    | .error e => .error e
    | .ok msg => .error (.typeError msg)
  | .list xs => checkPairsLen xs
  | .tuple xs => checkPairsLen xs

/-- Python `str.split('.')` on the character list. -/
def splitDotAux : List Char → List Char → List String
  | [], acc => [String.mk acc.reverse]
  | '.' :: rest, acc => String.mk acc.reverse :: splitDotAux rest []
  | c :: rest, acc => splitDotAux rest (c :: acc)

def pySplitDot (s : String) : List String := splitDotAux s.toList []

/-- Python `str.lower()`. -/
def pyLower (s : String) : String := String.mk (s.toList.map Char.toLower)

/-- tools.py lines 37-78, `writeYAML`.  The returned association list is the
content of the written YAML file (yaml.dump of a flat dictionary of scalars
round-trips, so the file is identified with the dictionary).  Note that the
`limLatitude` and `limLongitude` parameters are accepted but never serialized:
the output dictionary holds only x0, y0, step and unit. -/
def writeYAML (name : String) (coordsInit : PyData) (limLatitude limLongitude : ℚ × ℚ)
    (step : ℚ) (unit : String) : Except PyErr (List (String × YVal)) :=
  if pyLower ((pySplitDot name).getLastD name) ≠ "yaml" then
    .error (.valueError ("Output file must have a .yaml file extension."))
  else
    match checkPairs coordsInit ("coordsInit") with
    | .error e => .error e
    | .ok _ =>
      let xs := coordsInit.elems
      .ok [("x0", .num (xs.getD 0 0)), ("y0", .num (xs.getD 1 0)),
           ("step", .num step), ("unit", .str unit)]

/-! ## widgets/tab.py : Tab.loadYAML -/

/-- Dictionary lookup (Python `d[k]` / `k in d`). -/
def dget (d : List (String × YVal)) (k : String) : Option YVal :=
  (d.find? (fun p => p.1 == k)).map (·.2)

/-- Dictionary update: replace an existing key in place, else append. -/
def setKey (d : List (String × YVal)) (k : String) (v : YVal) : List (String × YVal) :=
  if (d.find? (fun p => p.1 == k)).isSome then
    d.map (fun p => if p.1 == k then (k, v) else p)
  else d ++ [(k, v)]

def yvalNum : YVal → Option ℚ
  | .num q => some q
  | .str _ => none

def getNum (d : List (String × YVal)) (k : String) : Option ℚ :=
  (dget d k).bind yvalNum

/-- Python `int(...)` truncates toward zero. -/
def pyTrunc (q : ℚ) : ℤ := if 0 ≤ q then ⌊q⌋ else ⌈q⌉

/-- Python `int(v)` on a manifest scalar. -/
def pyInt : YVal → Except PyErr ℤ
  | .num q => .ok (pyTrunc q)
  | .str s =>
    match s.toInt? with
    | some z => .ok z
    | none => .error (.valueError ("invalid literal for int with base 10"))

/-- numpy.arange(start, stop, step): `⌈(stop-start)/step⌉` equally spaced
values beginning at `start`, the end point excluded (exact rational
arithmetic; numpy raises on a zero step, which no modelled call performs). -/
def npArange (start stop step : ℚ) : List ℚ :=
  if step = 0 then []
  else (List.range (⌈(stop - start) / step⌉).toNat).map (fun i => start + (i : ℚ) * step)

/-- numpy.linspace(a, b, n) with endpoint included. -/
def npLinspace (a b : ℚ) (n : ℕ) : List ℚ :=
  if n = 0 then []
  else if n = 1 then [a]
  else (List.range n).map (fun i => a + (i : ℚ) * (b - a) / ((n : ℚ) - 1))

/-- The state a successful `Tab.loadYAML` leaves behind (tab.py lines 182-224). -/
structure ConfState where
  confParams : List (String × YVal)
  longitude : List ℚ
  latitude : List ℚ
  lenLong : ℕ
  lenLat : ℕ

deriving DecidableEq, Repr

/-- tab.py lines 169-224, `Tab.loadYAML`, taking the parsed YAML dictionary.
On failure the result carries the Python exception together with the value of
`self.confParams` after the call.  Key points mirrored from the source:
  * the five required keys are checked in order; a missing key clears
    `confParams` and raises IOError;
  * for inverted bounds the code clears `confParams` *before* building the
    ValueError message, whose percent-format arguments then look up
    `self.confParams['lat min']` (resp. 'long min') in the now-empty
    dictionary — so the raised exception is actually KeyError;
  * a non-positive step raises the intended ValueError (its message reads
    no dictionary entry);
  * on success x0/y0 are defaulted to 0 or truncated to int, the unit
    defaults to the degree sign, and the axes are rebuilt by arange with
    the end point included. -/
def loadYAML (d : List (String × YVal)) : Except (PyErr × List (String × YVal)) ConfState :=
  if dget d ("lat min") = none then
    .error (.ioError ("Data cannot be loaded because parameter lat min is missing in the YAML file."), [])
  else if dget d ("lat max") = none then
    .error (.ioError ("Data cannot be loaded because parameter lat max is missing in the YAML file."), [])
  else if dget d ("long min") = none then
    .error (.ioError ("Data cannot be loaded because parameter long min is missing in the YAML file."), [])
  else if dget d ("long max") = none then
    .error (.ioError ("Data cannot be loaded because parameter long max is missing in the YAML file."), [])
  else if dget d ("step") = none then
    .error (.ioError ("Data cannot be loaded because parameter step is missing in the YAML file."), [])
  else
    match getNum d ("lat min"), getNum d ("lat max") with
    | some latMin, some latMax =>
      if latMin ≥ latMax then .error (.keyError ("lat min"), [])
      else
        match getNum d ("long min"), getNum d ("long max") with
        | some longMin, some longMax =>
          if longMin ≥ longMax then .error (.keyError ("long min"), [])
          else
            match getNum d ("step") with
            | some step =>
              if step ≤ 0 then
                .error (.valueError ("Given latitude and longitude increment is < 0, which is not allowed."), [])
              else
                match (match dget d ("x0") with | none => Except.ok (0 : ℤ) | some v => pyInt v) with
                | .error e => .error (e, d)
                | .ok x0 =>
                  let d1 := setKey d ("x0") (.num (x0 : ℚ))
                  match (match dget d1 ("y0") with | none => Except.ok (0 : ℤ) | some v => pyInt v) with
                  | .error e => .error (e, d1)
                  | .ok y0 =>
                    let d2 := setKey d1 ("y0") (.num (y0 : ℚ))
                    let d3 := if dget d2 ("unit") = none then setKey d2 ("unit") (.str ("°")) else d2
                    let longitude := npArange longMin (longMax + step) step
                    let latitude := npArange latMin (latMax + step) step
                    .ok { confParams := d3, longitude := longitude, latitude := latitude,
                          lenLong := longitude.length, lenLat := latitude.length }
            | none => .error (.typeError ("unorderable types in comparison"), d)
        | _, _ => .error (.typeError ("unorderable types in comparison"), d)
    | _, _ => .error (.typeError ("unorderable types in comparison"), d)

/-! ## tools.py : Projection and RunProjection -/

/-- Default of the `size` parameter of `Projection.__init__` (tools.py line 89). -/
def projectionDefaultSize : ℕ × ℕ := (720, 720)

/-- The state built by `Projection.__init__` (tools.py lines 88-142):
one worker thread's configuration.  `dataShape` is `np.shape(data)`
(rows, columns, channels). -/
structure ProjConfig where
  dataShape : ℕ × ℕ × ℕ
  dataLong : List ℚ
  dataLat : List ℚ
  long : List ℚ
  indices : List ℕ
  lat : List ℚ
  directory : String
  name : String
  size : ℕ × ℕ
  ok : Bool

deriving DecidableEq, Repr

/-- Section sizes of `numpy.array_split(arr, k)` on an array of length `l`:
the first `l % k` sections have `l / k + 1` elements, the rest `l / k`. -/
def splitSizes (l k : ℕ) : List ℕ :=
  (List.range k).map (fun i => l / k + if i < l % k then 1 else 0)

def splitBySizes {α : Type} : List ℕ → List α → List (List α)
  | [], _ => []
  | s :: ss, xs => xs.take s :: splitBySizes ss (xs.drop s)

/-- `numpy.array_split(xs, k)`. -/
def arraySplit {α : Type} (xs : List α) (k : ℕ) : List (List α) :=
  splitBySizes (splitSizes xs.length k) xs

/-- tools.py lines 252-255: clamp the requested thread count to the number
of longitude grid points. -/
def clampThreads (numThreads lenLong : ℤ) : ℤ :=
  if numThreads > lenLong + 1 then lenLong + 1 else numThreads

/-- The state built by `RunProjection.__init__` (tools.py lines 173-262). -/
structure RunProj where
  name : String
  directory : String
  step : ℚ
  dataShape : ℕ × ℕ × ℕ
  longList : List ℚ
  latList : List ℚ
  allLong : List ℚ
  allLat : List ℚ
  lenLong : ℤ
  lenLat : ℤ
  initPos : PyData
  numThreads : ℤ
  manifest : List (String × YVal)
  shards : List (List ℕ)

deriving DecidableEq, Repr

/-- tools.py lines 173-262, `RunProjection.__init__`.  The `size` parameter is
accepted and then never used nor stored by the source.  The manifest is the
dictionary written by the `writeYAML` call at line 258; `shards` is
`np.array_split(np.indices(allLong.shape)[0], numThreads)` at line 262
(`np.indices((n,))[0]` is `[0, …, n-1]`).  An empty axis would make the
`allLat[0]` / `allLong[0]` arguments of the writeYAML call raise IndexError,
and `array_split` raises when its section count is not positive. -/
def RunProj.init (dataShape : ℕ × ℕ × ℕ) (directory name : String) (step : ℚ)
    (numThreads : ℤ) (initPos : Option PyData) (allLong allLat : Option (List ℚ))
    (size : ℕ × ℕ) : Except PyErr RunProj :=
  if numThreads < 1 then
    .error (.valueError ("Given number of threads is not an accepted value (must be >= 1)."))
  else
    let longList := npLinspace (-180) 180 dataShape.2.1
    let latList := npLinspace (-90) 90 dataShape.1
    let aLong := allLong.getD (npArange (-180) 180 step)
    let aLat := allLat.getD (npArange (-90) (90 + step) step)
    let lenLong : ℤ := (aLong.length : ℤ) - 1
    let lenLat : ℤ := (aLat.length : ℤ) - 1
    let iPos := initPos.getD (.list [0, (lenLat : ℚ)])
    let nT := clampThreads numThreads lenLong
    if aLat.isEmpty ∨ aLong.isEmpty then
      .error (.indexError ("index 0 is out of bounds for axis 0 with size 0"))
    else
      match writeYAML (directory ++ "/" ++ name ++ ".yaml") iPos
          (aLat.getD 0 0, aLat.getD (aLat.length - 1) 0)
          (aLong.getD 0 0, aLong.getD (aLong.length - 1) 0) step ("°") with
      | .error e => .error e
      | .ok manifest =>
        if nT ≤ 0 then .error (.valueError ("number sections must be larger than 0"))
        else
          .ok { name := name, directory := directory, step := step,
                dataShape := dataShape, longList := longList, latList := latList,
                allLong := aLong, allLat := aLat, lenLong := lenLong, lenLat := lenLat,
                initPos := iPos, numThreads := nT, manifest := manifest,
                shards := arraySplit (List.range aLong.length) nT.toNat }

/-- tools.py lines 264-270, `RunProjection.run`: one `Projection` per shard.
The call at line 269 passes no `size` argument, so the Python default
`(720, 720)` applies to every worker. -/
def RunProj.workers (rp : RunProj) : List ProjConfig :=
  (List.range rp.numThreads.toNat).map (fun i =>
    { dataShape := rp.dataShape, dataLong := rp.longList, dataLat := rp.latList,
      long := rp.allLong, indices := rp.shards.getD i [], lat := rp.allLat,
      directory := rp.directory, name := rp.name,
      size := projectionDefaultSize, ok := true })

/-! ### Projection.run (tools.py lines 144-169) as an event trace

The worker loop is modelled by the sequence of observable events it
produces: `check k v` is the k-th read of the shared `self.ok` flag
returning value `v` (the flag is set from outside, so reads are an oracle
`flag : ℕ → Bool`); `chan i p c` is the `transform_scalar` call for channel
`c` of tile `(i, p)`; `write i p` is the `imsave` of tile `(i, p)`.
`fail i p c = true` means the channel computation raises, in which case the
exception propagates out of `run` (there is no try/except in the source). -/

inductive Ev where
  | check (k : ℕ) (v : Bool)
  | chan (i p c : ℕ)
  | write (i p : ℕ)

deriving DecidableEq, Repr

/-- The inner channel loop of one tile (tools.py lines 158-160): events and
whether all channels succeeded. -/
def chanEvents (i p : ℕ) (fail : ℕ → ℕ → ℕ → Bool) : List ℕ → List Ev × Bool
  | [] => ([], true)
  | c :: rest =>
    if fail i p c then ([], false)
    else
      let r := chanEvents i p fail rest
      (Ev.chan i p c :: r.1, r.2)

/-- The latitude loop for one longitude index (tools.py lines 149-164).
Returns (events, next flag-read index, exception-escaped).  The flag is read
once at the top of each iteration; after a tile's channels succeed the tile
is written with no further flag read. -/
def innerRun (flag : ℕ → Bool) (fail : ℕ → ℕ → ℕ → Bool) (nchan i : ℕ) :
    List ℕ → ℕ → List Ev × ℕ × Bool
  | [], k => ([], k, false)
  | p :: rest, k =>
    if flag k = false then ([Ev.check k false], k + 1, false)
    else
      let ce := chanEvents i p fail (List.range nchan)
      if ce.2 = false then (Ev.check k true :: ce.1, k + 1, true)
      else
        let r := innerRun flag fail nchan i rest (k + 1)
        (Ev.check k true :: (ce.1 ++ Ev.write i p :: r.1), r.2.1, r.2.2)

/-- The longitude loop (tools.py lines 148-167): after each inner loop the
flag is read again (`if not self.ok: break` at line 166). -/
def outerRun (flag : ℕ → Bool) (fail : ℕ → ℕ → ℕ → Bool) (nchan : ℕ) (ps : List ℕ) :
    List ℕ → ℕ → List Ev × ℕ × Bool
  | [], k => ([], k, false)
  | i :: rest, k =>
    let ir := innerRun flag fail nchan i ps k
    if ir.2.2 then ir
    else
      let k1 := ir.2.1
      if flag k1 = false then (ir.1 ++ [Ev.check k1 false], k1 + 1, false)
      else
        let r := outerRun flag fail nchan ps rest (k1 + 1)
        (ir.1 ++ Ev.check k1 true :: r.1, r.2.1, r.2.2)

/-- tools.py lines 144-169, `Projection.run`: trace of events, and whether an
exception escaped the method (killing the worker thread). -/
def projectionRun (cfg : ProjConfig) (flag : ℕ → Bool) (fail : ℕ → ℕ → ℕ → Bool) :
    List Ev × Bool :=
  let r := outerRun flag fail cfg.dataShape.2.2 (List.range cfg.lat.length) cfg.indices 0
  (r.1, r.2.2)

/-- The tiles written during a trace. -/
def writesOf (t : List Ev) : List (ℕ × ℕ) :=
  t.filterMap (fun e => match e with | .write i p => some (i, p) | _ => none)

/-- All tiles produced by a full, uncancelled, failure-free run
(`RunProjection.run` joins every worker). -/
def runTiles (rp : RunProj) : List (ℕ × ℕ) :=
  ((rp.workers).map (fun w => writesOf (projectionRun w (fun _ => true) (fun _ _ _ => false)).1)).flatten

/-- The end-to-end scenario of the specification: a 360 × 180 RGB source
raster, step 90, two threads, output size (8, 8), no initial position. -/
def rpDefault : Except PyErr RunProj :=
  RunProj.init (180, 360, 3) ("out") ("proj") 90 2 none none none (8, 8)

/-- The state built by `RunProj.init (1,2,1) "d" "n" 90 1 none none none (8,8)`. -/
def rpSmall : RunProj :=
  { name := "n", directory := "d", step := 90, dataShape := (1, 2, 1),
    longList := [-180, 180], latList := [-90],
    allLong := [-180, -90, 0, 90], allLat := [-90, 0, 90],
    lenLong := 3, lenLat := 2, initPos := .list [0, 2], numThreads := 1,
    manifest := [("x0", .num 0), ("y0", .num 2), ("step", .num 90), ("unit", .str ("°"))],
    shards := [[0, 1, 2, 3]] }

/-- The single worker configuration of `rpSmall`. -/
def wSmall : ProjConfig :=
  { dataShape := (1, 2, 1), dataLong := [-180, 180], dataLat := [-90],
    long := [-180, -90, 0, 90], indices := [0, 1, 2, 3], lat := [-90, 0, 90],
    directory := "d", name := "n", size := projectionDefaultSize, ok := true }

/-- A worker configuration with shard [0, 1], two latitudes and one channel,
used to exhibit the behaviour of `Projection.run` on a failing tile. -/
def cfgTwoTiles : ProjConfig :=
  { dataShape := (2, 2, 1), dataLong := [-180, 180], dataLat := [-90, 90],
    long := [-180, -90], indices := [0, 1], lat := [-90, 0],
    directory := "d", name := "n", size := projectionDefaultSize, ok := true }

/-! ### Sharding (tools.py line 262) -/

/-- The shard list `np.array_split(np.indices((lenLong+1,))[0], numThreads)`
with the thread count already clamped as in tools.py lines 252-255. -/
def shardsFor (lenLong : ℕ) (numThreads : ℤ) : List (List ℕ) :=
  arraySplit (List.range (lenLong + 1)) (clampThreads numThreads (lenLong : ℤ)).toNat

/-! ### Cancellation granularity (C4)

The shape of every possible `Projection.run` trace is captured by a small
state machine: tile events (`chan`, `write`) may occur only immediately
after a flag check that returned true; all channels of a tile run
consecutively with no intervening flag check; a completed tile's write
follows its channels directly; and once a check returns false, only further
false checks can follow (no channel computation, no write).  Acceptance of
every reachable trace by this machine is exactly the amended cancellation
claim. -/

inductive MState where
  | top
  | afterTrue
  | needChan (i p c : ℕ)
  | needWrite (i p : ℕ)
  | afterFalse

deriving DecidableEq, Repr

def mstep (nchan : ℕ) : MState → Ev → Option MState
  | .top, .check _ v => some (if v then .afterTrue else .afterFalse)
  | .afterTrue, .check _ v => some (if v then .afterTrue else .afterFalse)
  | .afterTrue, .chan i p c =>
    if c = 0 ∧ 0 < nchan then
      (if nchan = 1 then some (.needWrite i p) else some (.needChan i p 1))
    else none
  | .afterTrue, .write i p => if nchan = 0 then some (.top) else none
  | .needChan i p c, .chan i2 p2 c2 =>
    if i2 = i ∧ p2 = p ∧ c2 = c then
      (if c + 1 = nchan then some (.needWrite i p) else some (.needChan i p (c + 1)))
    else none
  | .needWrite i p, .write i2 p2 => if i2 = i ∧ p2 = p then some (.top) else none
  | .afterFalse, .check _ false => some (.afterFalse)
  | _, _ => none

def accepting : MState → Bool
  | .needWrite _ _ => false
  | _ => true

def runM (nchan : ℕ) : MState → List Ev → Option MState
  | s, [] => some s
  | s, e :: rest =>
    match mstep nchan s e with
    | none => none
    | some s2 => runM nchan s2 rest

/-- A trace is well formed when the state machine accepts it. -/
def traceAccepts (nchan : ℕ) (t : List Ev) : Bool :=
  match runM nchan .top t with
  | some s => accepting s
  | none => false

/-- The cancellation flag is set at most once (true reads precede false
reads), which is how `self.ok` behaves: it starts true and is only ever set
to false. -/
def MonotoneFlag (flag : ℕ → Bool) : Prop :=
  ∀ j k : ℕ, j ≤ k → flag k = true → flag j = true

/-- The machine state expected when channel `c` of tile `(i, p)` is the next
event. -/
def stateAt (i p nchan c : ℕ) : MState :=
  if c = 0 then .afterTrue else if c < nchan then .needChan i p c else .needWrite i p

/-- A single-tile worker configuration with two channels, used to exhibit
the flag-check granularity of `Projection.run`. -/
def cfgOneTile : ProjConfig :=
  { dataShape := (1, 1, 2), dataLong := [0], dataLat := [0],
    long := [0], indices := [0], lat := [0],
    directory := "d", name := "n", size := projectionDefaultSize, ok := true }

/-- True when two channel computations occur back to back in the trace, with
no flag check between them. -/
def adjacentChans : List Ev → Bool
  | Ev.chan _ _ _ :: Ev.chan _ _ _ :: _ => true
  | _ :: rest => adjacentChans rest
  | [] => false

/-! ## basemap.py : interp (lines 1407-1543)

The resampler is embedded pointwise over exact rationals.  `datain` is a
total function (the engine always passes a raster whose shape matches the
axis lengths, and all computed indices are clipped into range).  The
`masked` keyword is fixed to False (its default, and what
`transform_scalar` passes for every claim below).  The order-3 branch
delegates to scipy's `map_coordinates`, an external library routine that is
total on valid inputs; it is abstracted as the parameter `mapCoords`. -/

/-- Python `max()` over a nonempty numpy array (the default value is never
used by `interp`: emptiness is trapped first). -/
def maxD (l : List ℚ) : ℚ :=
  match l with
  | [] => 0
  | x :: xs => xs.foldl max x

def minD (l : List ℚ) : ℚ :=
  match l with
  | [] => 0
  | x :: xs => xs.foldl min x

/-- `xin[1:] - xin[0:-1]`, the adjacent differences. -/
def diffs (l : List ℚ) : List ℚ := List.zipWith (fun a b => a - b) l.tail l

/-- The fast-path test at basemap.py line 1475: both axes uniformly spaced
within 1e-4. -/
def regularPath (xin yin : List ℚ) : Bool :=
  decide (maxD (diffs xin) - minD (diffs xin) < 1 / 10000)
    && decide (maxD (diffs yin) - minD (diffs yin) < 1 / 10000)

/-- `np.searchsorted(a, v)` (side='left') on a sorted axis: the number of
elements strictly below `v`. -/
def searchsortedLeft (a : List ℚ) (v : ℚ) : ℕ := a.countP (fun t => decide (t < v))

/-- `np.clip` on rationals. -/
def npClip (q lo hi : ℚ) : ℚ := min (max q lo) hi

/-- `np.clip` on integers. -/
def intClip (z lo hi : ℤ) : ℤ := min (max z lo) hi

/-- `np.around`: round half to even. -/
def npAround (q : ℚ) : ℤ :=
  if q - (⌊q⌋ : ℚ) < 1 / 2 then ⌊q⌋
  else if (1 : ℚ) / 2 < q - (⌊q⌋ : ℚ) then ⌊q⌋ + 1
  else if ⌊q⌋ % 2 = 0 then ⌊q⌋ else ⌊q⌋ + 1

/-- The fractional source-grid coordinate of one target value along one
axis: the linear-scaling fast path (line 1477) or the searchsorted path
(lines 1482-1500), before clipping. -/
def rawCoord (axis : List ℚ) (regular : Bool) (v : ℚ) : ℚ :=
  if regular then
    ((axis.length : ℚ) - 1) * (v - axis.getD 0 0)
      / (axis.getD (axis.length - 1) 0 - axis.getD 0 0)
  else
    let i : ℤ := (searchsortedLeft axis v : ℤ) - 1
    if i < 0 then -1
    else if (axis.length : ℤ) - 1 ≤ i then (axis.length : ℚ)
    else (i : ℚ) + (v - axis.getD i.toNat 0)
      / (axis.getD (i.toNat + 1) 0 - axis.getD i.toNat 0)

/-- Coordinates are clipped to [0, len-1] (basemap.py lines 1509-1510). -/
def clippedCoord (axis : List ℚ) (regular : Bool) (v : ℚ) : ℚ :=
  npClip (rawCoord axis regular v) 0 ((axis.length : ℚ) - 1)

/-- Bilinear interpolation of one output point (basemap.py lines 1512-1524);
`xc`, `yc` are the clipped coordinates. -/
def bilinearPoint (datain : ℕ → ℕ → ℚ) (nx ny : ℕ) (xc yc : ℚ) : ℚ :=
  let xi := pyTrunc xc
  let yi := pyTrunc yc
  let xip1 := intClip (xi + 1) 0 ((nx : ℤ) - 1)
  let yip1 := intClip (yi + 1) 0 ((ny : ℤ) - 1)
  let dx := xc - (xi : ℚ)
  let dy := yc - (yi : ℚ)
  (1 - dx) * (1 - dy) * datain yi.toNat xi.toNat
    + dx * dy * datain yip1.toNat xip1.toNat
    + (1 - dx) * dy * datain yip1.toNat xi.toNat
    + dx * (1 - dy) * datain yi.toNat xip1.toNat

/-- Nearest-neighbor interpolation of one output point (lines 1525-1528). -/
def nearestPoint (datain : ℕ → ℕ → ℚ) (xc yc : ℚ) : ℚ :=
  datain (npAround yc).toNat (npAround xc).toNat

/-- One output point for order 1 or 0. -/
def interpPoint (datain : ℕ → ℕ → ℚ) (xin yin : List ℚ) (order : ℤ) (x y : ℚ) : ℚ :=
  let reg := regularPath xin yin
  let xc := clippedCoord xin reg x
  let yc := clippedCoord yin reg y
  if order = 1 then bilinearPoint datain xin.length yin.length xc yc
  else nearestPoint datain xc yc

def shapeOf (g : List (List ℚ)) : List ℕ := g.map List.length

def map2 (f : ℚ → ℚ → ℚ) : List (List ℚ) → List (List ℚ) → List (List ℚ) :=
  List.zipWith (List.zipWith f)

/-- The errors `interp` can raise (all ValueError / IndexError in Python;
distinguished here by their source). -/
inductive InterpErr where
  | indexError
  | notIncreasing
  | shapeMismatch
  | emptyReduce
  | outsideRange
  | emptyMax
  | scipyMissing
  | badOrder

deriving DecidableEq, Repr

def isOkE {ε α : Type} : Except ε α → Bool
  | .ok _ => true
  | .error _ => false

/-- basemap.py lines 1407-1543, `interp`, with `masked=False`.  The checks
appear in source order:
  * `xin[-1]` / `yin[-1]` on an empty axis raises IndexError;
  * the "increasing" check compares only the end points
    (`xin[-1]-xin[0] < 0 or yin[-1]-yin[0] < 0`);
  * the shape check compares `xout.shape` with `yout.shape`;
  * under `checkbounds`, `xout.min()` raises on an empty grid, else
    out-of-range targets raise ValueError;
  * `max(delx)` raises on an axis of length < 2 — but note the Python `and`
    short-circuit: `max(dely)` is only evaluated when the x-spread is small;
  * order 1 / 0 compute, order 3 needs scipy, anything else raises. -/
def interp (mapCoords : (ℕ → ℕ → ℚ) → List (List ℚ) → List (List ℚ) → List (List ℚ))
    (datain : ℕ → ℕ → ℚ) (xin yin : List ℚ) (xout yout : List (List ℚ))
    (checkbounds : Bool) (order : ℤ) (scipyAvailable : Bool) :
    Except InterpErr (List (List ℚ)) :=
  if xin.isEmpty ∨ yin.isEmpty then .error (.indexError)
  else if xin.getD (xin.length - 1) 0 - xin.getD 0 0 < 0
      ∨ yin.getD (yin.length - 1) 0 - yin.getD 0 0 < 0 then .error (.notIncreasing)
  else if shapeOf xout ≠ shapeOf yout then .error (.shapeMismatch)
  else if checkbounds ∧ xout.flatten.isEmpty then .error (.emptyReduce)
  else if checkbounds ∧ (minD xout.flatten < minD xin ∨ maxD xout.flatten > maxD xin
      ∨ minD yout.flatten < minD yin ∨ maxD yout.flatten > maxD yin) then
    .error (.outsideRange)
  else if xin.length < 2 then .error (.emptyMax)
  else if maxD (diffs xin) - minD (diffs xin) < 1 / 10000 ∧ yin.length < 2 then
    .error (.emptyMax)
  else if order = 1 ∨ order = 0 then
    .ok (map2 (interpPoint datain xin yin order) xout yout)
  else if order = 3 then
    if scipyAvailable then
      .ok (mapCoords datain
        (yout.map (List.map (clippedCoord yin (regularPath xin yin))))
        (xout.map (List.map (clippedCoord xin (regularPath xin yin)))))
    else .error (.scipyMissing)
  else .error (.badOrder)

/-- Strict monotonicity of an axis. -/
def strictlyIncreasing (l : List ℚ) : Bool :=
  match l with
  | [] => true
  | [_] => true
  | a :: b :: rest => decide (a < b) && strictlyIncreasing (b :: rest)

def nondecreasing (l : List ℚ) : Bool :=
  match l with
  | [] => true
  | [_] => true
  | a :: b :: rest => decide (a ≤ b) && nondecreasing (b :: rest)

/-! ## Theorems -/

/-- C1: the manifest round-trip fails on every input.  `writeYAML` serializes
only x0, y0, step and unit — the latitude/longitude bounds it receives are
dropped — while `loadYAML` requires lat min/lat max/long min/long max and
raises IOError on the very file `writeYAML` just wrote, clearing the
configuration state.  Shown here at the concrete manifest
(x0, y0) = (0, 2), bounds (-90, 90) and (-180, 180), step 45, unit degree. -/
theorem c1_manifest_roundtrip_fails :
    writeYAML ("p.yaml") (.list [0, 2]) (-90, 90) (-180, 180) 45 ("°")
      = .ok [("x0", .num 0), ("y0", .num 2), ("step", .num 45), ("unit", .str ("°"))]
    ∧ loadYAML [("x0", .num 0), ("y0", .num 2), ("step", .num 45), ("unit", .str ("°"))]
      = .error (.ioError ("Data cannot be loaded because parameter lat min is missing in the YAML file."), []) := by
  constructor <;> decide

/-- C8: reading a degenerate manifest does fail with the configuration state
left empty, but for inverted bounds the raised exception is KeyError, not the
intended manifest-validation error: the code clears `self.confParams` before
formatting the ValueError message, and the message arguments then look up the
cleared dictionary.  Only the step ≤ 0 branch raises its ValueError. -/
theorem c8_degenerate_manifest_rejection :
    loadYAML [("lat min", .num 10), ("lat max", .num 5), ("long min", .num (-180)),
              ("long max", .num 180), ("step", .num 45)]
      = .error (.keyError ("lat min"), [])
    ∧ loadYAML [("lat min", .num (-90)), ("lat max", .num 90), ("long min", .num 180),
                ("long max", .num (-180)), ("step", .num 45)]
      = .error (.keyError ("long min"), [])
    ∧ loadYAML [("lat min", .num (-90)), ("lat max", .num 90), ("long min", .num (-180)),
                ("long max", .num 180), ("step", .num 0)]
      = .error (.valueError ("Given latitude and longitude increment is < 0, which is not allowed."), []) := by
  refine ⟨by decide, by decide, by decide⟩

/-- C10: for every list or tuple whose length is not 2, `checkPairs` raises a
TypeError coming from the percent-formatting of the intended ValueError
message (two specifiers, one argument), so the caller never observes the
intended ValueError. -/
theorem c10_checkPairs_formatting_typeerror (xs : List ℚ) (name : String)
    (h : xs.length ≠ 2) :
    checkPairs (.list xs) name = .error (.typeError ("not enough arguments for format string"))
    ∧ checkPairs (.tuple xs) name = .error (.typeError ("not enough arguments for format string"))
    ∧ ∀ m, checkPairs (.list xs) name ≠ .error (.valueError m) := by
  have hs : specCount ("%s must be a list or tuple of length 2 but current length is %d") = 2 := by
    decide
  have hlen : checkPairsLen xs = .error (.typeError ("not enough arguments for format string")) := by
    simp only [checkPairsLen, if_pos h, pyFormat, hs, List.length_singleton]
    norm_num
  refine ⟨hlen, hlen, ?_⟩
  intro m hm
  rw [show checkPairs (.list xs) name = checkPairsLen xs from rfl, hlen] at hm
  exact absurd (Except.error.inj hm) (by simp)

/-- Witness for C10 at the concrete length-3 list [1, 2, 3]. -/
theorem c10_checkPairs_formatting_typeerror_witness :
    ([1, 2, 3] : List ℚ).length ≠ 2
    ∧ checkPairs (.list [1, 2, 3]) ("coordsInit")
        = .error (.typeError ("not enough arguments for format string")) :=
  ⟨by decide, (c10_checkPairs_formatting_typeerror [1, 2, 3] ("coordsInit") (by decide)).1⟩

/-- C2 counterexample: the longitude axis of `RunProjection.__init__` is
`arange(-180, 180, step)` — the end point is NOT included, unlike the
latitude axis — so for step 90 it has 4 entries, not the 5 of
`arange(lonMin, lonMax + step, step)`, and the run produces 12 tiles,
not 15. -/
theorem c2_grid_axis_counterexample :
    rpDefault.map (fun rp => rp.allLong) = .ok [-180, -90, 0, 90]
    ∧ npArange (-180) (180 + 90) 90 = [-180, -90, 0, 90, 180]
    ∧ ([-180, -90, 0, 90] : List ℚ) ≠ npArange (-180) (180 + 90) 90
    ∧ rpDefault.map (fun rp => (runTiles rp).length) = .ok 12
    ∧ (12 : ℕ) ≠ 15 := by
  refine ⟨by decide, by decide, by decide, by decide, by decide⟩

/-- C2 amended: with the default bounds and step 90, the longitude axis is
`arange(-180, 180, 90) = [-180, -90, 0, 90]` (end point excluded; the
latitude axis `arange(-90, 90 + 90, 90) = [-90, 0, 90]` does include its
end point), so a run produces tiles for longitude indices {0,1,2,3} ×
latitude indices {0,1,2} (12 tiles), and the manifest records x0 = 0,
y0 = 2 when no initial position is supplied. -/
theorem c2_grid_axes_and_tiles :
    rpDefault.map (fun rp => rp.allLong) = .ok (npArange (-180) 180 90)
    ∧ rpDefault.map (fun rp => rp.allLat) = .ok (npArange (-90) (90 + 90) 90)
    ∧ rpDefault.map (fun rp => rp.allLong) = .ok [-180, -90, 0, 90]
    ∧ rpDefault.map (fun rp => rp.allLat) = .ok [-90, 0, 90]
    ∧ rpDefault.map (fun rp => runTiles rp)
        = .ok [(0,0),(0,1),(0,2),(1,0),(1,1),(1,2),(2,0),(2,1),(2,2),(3,0),(3,1),(3,2)]
    ∧ rpDefault.map (fun rp => (dget rp.manifest ("x0"), dget rp.manifest ("y0")))
        = .ok (some (.num 0), some (.num 2)) := by
  refine ⟨by decide, by decide, by decide, by decide, by decide, by decide⟩

/-- C9: the `size` argument of `RunProjection` has no effect: two
constructions differing only in `size` build identical states (the parameter
is never read), and every worker configuration created by
`RunProjection.run` carries the `Projection` class default 720 × 720 because
the construction at tools.py line 269 omits the size argument.  Identical
worker configurations imply identical tile contents. -/
theorem c9_output_size_argument_ignored (dataShape : ℕ × ℕ × ℕ) (directory name : String)
    (step : ℚ) (numThreads : ℤ) (initPos : Option PyData) (allLong allLat : Option (List ℚ))
    (s s' : ℕ × ℕ) :
    RunProj.init dataShape directory name step numThreads initPos allLong allLat s
      = RunProj.init dataShape directory name step numThreads initPos allLong allLat s'
    ∧ ∀ rp, RunProj.init dataShape directory name step numThreads initPos allLong allLat s
          = .ok rp → ∀ w ∈ rp.workers, w.size = projectionDefaultSize := by
  refine ⟨rfl, fun rp _ w hw => ?_⟩
  simp only [RunProj.workers, List.mem_map] at hw
  obtain ⟨i, _, rfl⟩ := hw
  rfl

/-- Witness for C9 at a concrete run configuration and sizes (8,8) / (9,9). -/
theorem c9_output_size_argument_ignored_witness :
    (RunProj.init (1, 2, 1) ("d") ("n") 90 1 none none none (8, 8) = .ok rpSmall)
    ∧ wSmall ∈ rpSmall.workers
    ∧ wSmall.size = projectionDefaultSize :=
  ⟨by decide, by decide,
   (c9_output_size_argument_ignored (1, 2, 1) ("d") ("n") 90 1 none none none
      (8, 8) (9, 9)).2 rpSmall (by decide) wSmall (by decide)⟩

/-- C3 counterexample: `Projection.run` has no try/except, so an error while
projecting the first tile (0,0) escapes the worker (`.2 = true`), the trace
stops at the first flag check, and none of the remaining tiles (0,1), (1,0),
(1,1) of the shard is ever attempted — the worker does NOT continue with the
next tile. -/
theorem c3_no_tile_fault_tolerance_counterexample :
    (projectionRun cfgTwoTiles (fun _ => true) (fun i p _ => i == 0 && p == 0))
      = ([Ev.check 0 true], true)
    ∧ Ev.write 0 1 ∉ (projectionRun cfgTwoTiles (fun _ => true) (fun i p _ => i == 0 && p == 0)).1
    ∧ Ev.write 1 0 ∉ (projectionRun cfgTwoTiles (fun _ => true) (fun i p _ => i == 0 && p == 0)).1 := by
  refine ⟨by decide, by decide, by decide⟩

/-- C3 amended: an error raised while projecting or resampling a center point
is not caught: it propagates out of `Projection.run`, terminating that
worker, and every tile after the failing one in the worker's iteration order
is skipped.  Shown for a failure on the first tile of the shard: the run
aborts immediately and writes nothing (other workers, being independent
threads joined by `RunProjection.run`, are unaffected). -/
theorem c3_tile_error_aborts_worker (cfg : ProjConfig) (flag : ℕ → Bool)
    (fail : ℕ → ℕ → ℕ → Bool) (i : ℕ) (is : List ℕ)
    (hidx : cfg.indices = i :: is) (hlat : cfg.lat ≠ []) (hnc : cfg.dataShape.2.2 ≠ 0)
    (hflag : flag 0 = true) (hfail : fail i 0 0 = true) :
    projectionRun cfg flag fail = ([Ev.check 0 true], true)
    ∧ ∀ j p, Ev.write j p ∉ (projectionRun cfg flag fail).1 := by
  obtain ⟨q, qs, hq⟩ : ∃ q qs, cfg.lat = q :: qs := by
    cases hl : cfg.lat with
    | nil => exact absurd hl hlat
    | cons q qs => exact ⟨q, qs, rfl⟩
  obtain ⟨m, hm⟩ : ∃ m, cfg.lat.length = m + 1 := ⟨qs.length, by rw [hq]; rfl⟩
  have hrange : List.range cfg.lat.length = 0 :: (List.range m).map Nat.succ := by
    rw [hm, List.range_succ_eq_map]
  have hchan : chanEvents i 0 fail (List.range cfg.dataShape.2.2) = ([], false) := by
    cases hc : cfg.dataShape.2.2 with
    | zero => exact absurd hc hnc
    | succ nc =>
      rw [List.range_succ_eq_map]
      simp [chanEvents, hfail]
  have hmain : projectionRun cfg flag fail = ([Ev.check 0 true], true) := by
    unfold projectionRun
    rw [hidx]
    unfold outerRun
    rw [hrange]
    unfold innerRun
    rw [hflag, hchan]
    simp
  exact ⟨hmain, by rw [hmain]; intro j p h; simp at h⟩

/-- Witness for C3 at the concrete two-tile worker configuration. -/
theorem c3_tile_error_aborts_worker_witness :
    cfgTwoTiles.indices = 0 :: [1] ∧ cfgTwoTiles.lat ≠ [] ∧ cfgTwoTiles.dataShape.2.2 ≠ 0
    ∧ projectionRun cfgTwoTiles (fun _ => true) (fun i p _ => i == 0 && p == 0)
        = ([Ev.check 0 true], true) :=
  ⟨by decide, by decide, by decide,
   (c3_tile_error_aborts_worker cfgTwoTiles (fun _ => true) (fun i p _ => i == 0 && p == 0)
      0 [1] (by decide) (by decide) (by decide) rfl (by decide)).1⟩

theorem sum_range_ite (k q m : ℕ) :
    ((List.range k).map (fun i => q + if i < m then 1 else 0)).sum = k * q + min m k := by
  induction k with
  | zero => simp
  | succ k ih =>
    rw [List.range_succ, List.map_append, List.sum_append, ih]
    simp only [List.map_cons, List.map_nil, List.sum_cons, List.sum_nil]
    have hmul : (k + 1) * q = k * q + q := by ring
    rcases Nat.lt_or_ge k m with h | h
    · rw [if_pos h]; omega
    · rw [if_neg (Nat.not_lt.mpr h)]; omega

theorem sum_splitSizes (l k : ℕ) (hk : 0 < k) : (splitSizes l k).sum = l := by
  unfold splitSizes
  rw [sum_range_ite]
  have h1 : l % k < k := Nat.mod_lt _ hk
  have h2 := Nat.div_add_mod l k
  omega

theorem length_splitBySizes {α : Type} (ss : List ℕ) (xs : List α) :
    (splitBySizes ss xs).length = ss.length := by
  induction ss generalizing xs with
  | nil => rfl
  | cons s ss ih => simp [splitBySizes, ih]

theorem flatten_splitBySizes {α : Type} (ss : List ℕ) (xs : List α)
    (h : xs.length ≤ ss.sum) : (splitBySizes ss xs).flatten = xs := by
  induction ss generalizing xs with
  | nil =>
    simp only [List.sum_nil, Nat.le_zero] at h
    rw [List.length_eq_zero.mp h]
    rfl
  | cons s ss ih =>
    simp only [splitBySizes, List.flatten_cons]
    rw [ih (xs.drop s) (by rw [List.length_drop]; simp only [List.sum_cons] at h; omega)]
    exact List.take_append_drop s xs

theorem mapLength_splitBySizes {α : Type} (ss : List ℕ) (xs : List α)
    (h : ss.sum ≤ xs.length) : (splitBySizes ss xs).map List.length = ss := by
  induction ss generalizing xs with
  | nil => rfl
  | cons s ss ih =>
    simp only [List.sum_cons] at h
    simp only [splitBySizes, List.map_cons]
    congr 1
    · rw [List.length_take]; omega
    · exact ih (xs.drop s) (by rw [List.length_drop]; omega)

/-- C5: for every grid with `lenLong + 1` longitude columns and every
requested thread count ≥ 1, the longitude index array [0..lenLong] is split
into `min(numThreads, lenLong+1)` contiguous shards whose concatenation is
exactly [0..lenLong] (so their union is everything and no index occurs in
two shards), any two shard sizes differ by at most 1, and no more shards
are created than there are longitude columns. -/
theorem c5_sharding_conservation (lenLong : ℕ) (numThreads : ℤ) (h1 : 1 ≤ numThreads) :
    (((clampThreads numThreads (lenLong : ℤ)).toNat : ℤ) = min numThreads ((lenLong : ℤ) + 1))
    ∧ (shardsFor lenLong numThreads).length = (clampThreads numThreads (lenLong : ℤ)).toNat
    ∧ (shardsFor lenLong numThreads).flatten = List.range (lenLong + 1)
    ∧ List.Pairwise List.Disjoint (shardsFor lenLong numThreads)
    ∧ (∀ s ∈ shardsFor lenLong numThreads, ∀ t ∈ shardsFor lenLong numThreads,
         s.length ≤ t.length + 1)
    ∧ (clampThreads numThreads (lenLong : ℤ)).toNat ≤ lenLong + 1 := by
  have hclamp : clampThreads numThreads (lenLong : ℤ) = min numThreads ((lenLong : ℤ) + 1) := by
    unfold clampThreads; split <;> omega
  have hkeq : (((clampThreads numThreads (lenLong : ℤ)).toNat : ℤ))
      = min numThreads ((lenLong : ℤ) + 1) := by omega
  set k := (clampThreads numThreads (lenLong : ℤ)).toNat with hkdef
  have hk1 : 1 ≤ k := by omega
  have hkn : k ≤ lenLong + 1 := by omega
  have hsum : (splitSizes (lenLong + 1) k).sum = lenLong + 1 := sum_splitSizes _ _ hk1
  have hshards : shardsFor lenLong numThreads
      = splitBySizes (splitSizes (lenLong + 1) k) (List.range (lenLong + 1)) := by
    simp only [shardsFor, arraySplit, List.length_range, hkdef]
  have hflat : (shardsFor lenLong numThreads).flatten = List.range (lenLong + 1) := by
    rw [hshards]
    exact flatten_splitBySizes _ _ (by rw [List.length_range, hsum])
  have hmaplen : (shardsFor lenLong numThreads).map List.length = splitSizes (lenLong + 1) k := by
    rw [hshards]
    exact mapLength_splitBySizes _ _ (by rw [List.length_range, hsum])
  have hsizes : ∀ s ∈ shardsFor lenLong numThreads,
      s.length = (lenLong + 1) / k ∨ s.length = (lenLong + 1) / k + 1 := by
    intro s hs
    have : s.length ∈ splitSizes (lenLong + 1) k := by
      rw [← hmaplen]
      exact List.mem_map_of_mem _ hs
    simp only [splitSizes, List.mem_map, List.mem_range] at this
    obtain ⟨i, _, hi⟩ := this
    split at hi
    · right; omega
    · left; omega
  refine ⟨hkeq, ?_, hflat, ?_, ?_, hkn⟩
  · rw [hshards, length_splitBySizes]
    simp [splitSizes]
  · have hnodup : (shardsFor lenLong numThreads).flatten.Nodup := by
      rw [hflat]; exact List.nodup_range _
    exact (List.nodup_flatten.mp hnodup).2
  · intro s hs t ht
    rcases hsizes s hs with h | h <;> rcases hsizes t ht with h2 | h2 <;> omega

/-- Witness for C5 at lenLong = 4, numThreads = 3. -/
theorem c5_sharding_conservation_witness :
    (1 : ℤ) ≤ 3
    ∧ ((((clampThreads 3 (4 : ℤ)).toNat : ℤ) = min 3 ((4 : ℤ) + 1))
       ∧ (shardsFor 4 3).length = (clampThreads 3 (4 : ℤ)).toNat
       ∧ (shardsFor 4 3).flatten = List.range (4 + 1)
       ∧ List.Pairwise List.Disjoint (shardsFor 4 3)
       ∧ (∀ s ∈ shardsFor 4 3, ∀ t ∈ shardsFor 4 3, s.length ≤ t.length + 1)
       ∧ (clampThreads 3 (4 : ℤ)).toNat ≤ 4 + 1) :=
  ⟨by decide, c5_sharding_conservation 4 3 (by decide)⟩

theorem runM_append (nchan : ℕ) (s : MState) (t1 t2 : List Ev) :
    runM nchan s (t1 ++ t2)
      = match runM nchan s t1 with
        | none => none
        | some s2 => runM nchan s2 t2 := by
  induction t1 generalizing s with
  | nil => simp [runM]
  | cons e rest ih =>
    simp only [List.cons_append, runM]
    cases mstep nchan s e with
    | none => rfl
    | some s2 => exact ih s2

theorem mstep_chanStep (i p nchan c : ℕ) (hc : c < nchan) :
    mstep nchan (stateAt i p nchan c) (Ev.chan i p c) = some (stateAt i p nchan (c + 1)) := by
  unfold stateAt
  rcases Nat.eq_zero_or_pos c with rfl | hc0
  · rw [if_pos rfl]
    simp only [mstep]
    rw [if_pos (And.intro trivial hc)]
    by_cases h1 : nchan = 1
    · rw [if_pos h1, if_neg (by omega : ¬ (0 + 1 = 0)), if_neg (by omega : ¬ (0 + 1 < nchan))]
    · rw [if_neg h1, if_neg (by omega : ¬ (0 + 1 = 0)), if_pos (by omega : 0 + 1 < nchan)]
  · rw [if_neg (by omega : ¬ (c = 0)), if_pos hc]
    simp only [mstep]
    rw [if_pos (And.intro trivial (And.intro trivial trivial))]
    by_cases h1 : c + 1 = nchan
    · rw [if_pos h1, if_neg (by omega : ¬ (c + 1 = 0)), if_neg (by omega : ¬ (c + 1 < nchan))]
    · rw [if_neg h1, if_neg (by omega : ¬ (c + 1 = 0)), if_pos (by omega : c + 1 < nchan)]

theorem chanM (i p nchan : ℕ) (fail : ℕ → ℕ → ℕ → Bool) :
    ∀ (m c : ℕ), c + m = nchan →
      ((chanEvents i p fail (List.range' c m)).2 = true →
        runM nchan (stateAt i p nchan c)
          ((chanEvents i p fail (List.range' c m)).1 ++ [Ev.write i p]) = some (.top))
      ∧ ((chanEvents i p fail (List.range' c m)).2 = false →
        ∃ s, runM nchan (stateAt i p nchan c) (chanEvents i p fail (List.range' c m)).1 = some s
          ∧ accepting s = true) := by
  intro m
  induction m with
  | zero =>
    intro c hc
    constructor
    · intro _
      have hceq : c = nchan := by omega
      subst hceq
      simp only [List.range', chanEvents, List.nil_append]
      rcases Nat.eq_zero_or_pos c with rfl | hpos
      · simp [stateAt, runM, mstep]
      · have hst : stateAt i p c c = .needWrite i p := by
          unfold stateAt
          rw [if_neg (by omega : ¬ (c = 0)), if_neg (by omega : ¬ (c < c))]
        have hmw : mstep c (MState.needWrite i p) (Ev.write i p) = some (.top) := by
          simp [mstep]
        rw [hst]
        simp [runM, hmw]
    · intro h
      simp [List.range', chanEvents] at h
  | succ m ih =>
    intro c hc
    have hclt : c < nchan := by omega
    rw [List.range'_succ]
    by_cases hf : fail i p c = true
    · simp only [chanEvents, if_pos hf]
      constructor
      · intro h; exact absurd h (by simp)
      · intro _
        refine ⟨stateAt i p nchan c, rfl, ?_⟩
        unfold stateAt
        split <;> rfl
    · have hf' : fail i p c = false := by
        revert hf; cases fail i p c <;> simp
      have ihc := ih (c + 1) (by omega)
      simp only [chanEvents, hf', if_neg (by simp : ¬ (false = true))]
      constructor
      · intro h
        simp only [List.cons_append, runM, mstep_chanStep i p nchan c hclt]
        exact ihc.1 h
      · intro h
        obtain ⟨s, hs, hacc⟩ := ihc.2 h
        exact ⟨s, by simp only [runM, mstep_chanStep i p nchan c hclt]; exact hs, hacc⟩

theorem tileM_success (i p nchan : ℕ) (fail : ℕ → ℕ → ℕ → Bool)
    (h : (chanEvents i p fail (List.range nchan)).2 = true) :
    runM nchan (.afterTrue) ((chanEvents i p fail (List.range nchan)).1 ++ [Ev.write i p])
      = some (.top) := by
  have := (chanM i p nchan fail nchan 0 (by omega)).1
  rw [List.range_eq_range'] at h ⊢
  simpa [stateAt] using this h

theorem tileM_fail (i p nchan : ℕ) (fail : ℕ → ℕ → ℕ → Bool)
    (h : (chanEvents i p fail (List.range nchan)).2 = false) :
    ∃ s, runM nchan (.afterTrue) (chanEvents i p fail (List.range nchan)).1 = some s
      ∧ accepting s = true := by
  have := (chanM i p nchan fail nchan 0 (by omega)).2
  rw [List.range_eq_range'] at h ⊢
  simpa [stateAt] using this h

theorem innerM (flag : ℕ → Bool) (fail : ℕ → ℕ → ℕ → Bool) (nchan i : ℕ) :
    ∀ (ps : List ℕ) (k : ℕ),
      ((innerRun flag fail nchan i ps k).2.2 = true →
        ∃ s, runM nchan (.top) (innerRun flag fail nchan i ps k).1 = some s
          ∧ accepting s = true)
      ∧ ((innerRun flag fail nchan i ps k).2.2 = false →
        runM nchan (.top) (innerRun flag fail nchan i ps k).1 = some (.top)
        ∨ (runM nchan (.top) (innerRun flag fail nchan i ps k).1 = some (.afterFalse)
           ∧ 1 ≤ (innerRun flag fail nchan i ps k).2.1
           ∧ flag ((innerRun flag fail nchan i ps k).2.1 - 1) = false)) := by
  intro ps
  induction ps with
  | nil =>
    intro k
    exact ⟨fun h => by simp [innerRun] at h, fun _ => Or.inl rfl⟩
  | cons p rest ih =>
    intro k
    by_cases hfk : flag k = true
    · by_cases hce : (chanEvents i p fail (List.range nchan)).2 = true
      · -- the tile succeeds: check true, channels, write, then the rest
        have htr : (innerRun flag fail nchan i (p :: rest) k).1
            = Ev.check k true :: ((chanEvents i p fail (List.range nchan)).1
                ++ Ev.write i p :: (innerRun flag fail nchan i rest (k + 1)).1) := by
          simp [innerRun, hfk, hce]
        have hk1 : (innerRun flag fail nchan i (p :: rest) k).2.1
            = (innerRun flag fail nchan i rest (k + 1)).2.1 := by
          simp [innerRun, hfk, hce]
        have hab : (innerRun flag fail nchan i (p :: rest) k).2.2
            = (innerRun flag fail nchan i rest (k + 1)).2.2 := by
          simp [innerRun, hfk, hce]
        have hrw : runM nchan (.top) (innerRun flag fail nchan i (p :: rest) k).1
            = runM nchan (.top) (innerRun flag fail nchan i rest (k + 1)).1 := by
          rw [htr]
          have hstep : runM nchan (.top)
              (Ev.check k true :: ((chanEvents i p fail (List.range nchan)).1
                ++ Ev.write i p :: (innerRun flag fail nchan i rest (k + 1)).1))
              = runM nchan (.afterTrue)
                ((chanEvents i p fail (List.range nchan)).1
                  ++ Ev.write i p :: (innerRun flag fail nchan i rest (k + 1)).1) := rfl
          rw [hstep]
          rw [show (chanEvents i p fail (List.range nchan)).1
                ++ Ev.write i p :: (innerRun flag fail nchan i rest (k + 1)).1
              = ((chanEvents i p fail (List.range nchan)).1 ++ [Ev.write i p])
                ++ (innerRun flag fail nchan i rest (k + 1)).1 by
            rw [List.append_assoc]; rfl]
          rw [runM_append, tileM_success i p nchan fail hce]
        constructor
        · intro h
          rw [hab] at h
          obtain ⟨s, hs, hacc⟩ := (ih (k + 1)).1 h
          exact ⟨s, by rw [hrw]; exact hs, hacc⟩
        · intro h
          rw [hab] at h
          rcases (ih (k + 1)).2 h with htop | ⟨haf, h1k, hfl⟩
          · exact Or.inl (by rw [hrw]; exact htop)
          · exact Or.inr ⟨by rw [hrw]; exact haf, by rw [hk1]; exact h1k,
              by rw [hk1]; exact hfl⟩
      · -- the tile raises: trace ends after the partial channel block
        have hce0 : (chanEvents i p fail (List.range nchan)).2 = false := by
          revert hce; cases (chanEvents i p fail (List.range nchan)).2 <;> simp
        constructor
        · intro _
          obtain ⟨s, hs, hacc⟩ := tileM_fail i p nchan fail hce0
          refine ⟨s, ?_, hacc⟩
          have htr : (innerRun flag fail nchan i (p :: rest) k).1
              = Ev.check k true :: (chanEvents i p fail (List.range nchan)).1 := by
            simp [innerRun, hfk, hce0]
          rw [htr]
          exact hs
        · intro h
          simp [innerRun, hfk, hce0] at h
    · have hf0 : flag k = false := by revert hfk; cases flag k <;> simp
      constructor
      · intro h
        simp [innerRun, hf0] at h
      · intro _
        right
        refine ⟨?_, ?_, ?_⟩
        · have htr : (innerRun flag fail nchan i (p :: rest) k).1 = [Ev.check k false] := by
            simp [innerRun, hf0]
          rw [htr]
          rfl
        · have : (innerRun flag fail nchan i (p :: rest) k).2.1 = k + 1 := by
            simp [innerRun, hf0]
          omega
        · have hk2 : (innerRun flag fail nchan i (p :: rest) k).2.1 = k + 1 := by
            simp [innerRun, hf0]
          rw [hk2]
          simpa using hf0

/-- Traces of the loops start with a flag check (or are empty). -/
theorem inner_first (flag : ℕ → Bool) (fail : ℕ → ℕ → ℕ → Bool) (nchan i : ℕ)
    (ps : List ℕ) (k : ℕ) :
    (innerRun flag fail nchan i ps k).1 = []
    ∨ ∃ k2 v r2, (innerRun flag fail nchan i ps k).1 = Ev.check k2 v :: r2 := by
  cases ps with
  | nil => exact Or.inl rfl
  | cons p rest =>
    by_cases hfk : flag k = true
    · by_cases hce : (chanEvents i p fail (List.range nchan)).2 = true
      · exact Or.inr ⟨k, true,
          (chanEvents i p fail (List.range nchan)).1
            ++ Ev.write i p :: (innerRun flag fail nchan i rest (k + 1)).1,
          by simp [innerRun, hfk, hce]⟩
      · have hce0 : (chanEvents i p fail (List.range nchan)).2 = false := by
          revert hce; cases (chanEvents i p fail (List.range nchan)).2 <;> simp
        exact Or.inr ⟨k, true, (chanEvents i p fail (List.range nchan)).1,
          by simp [innerRun, hfk, hce0]⟩
    · have hf0 : flag k = false := by revert hfk; cases flag k <;> simp
      exact Or.inr ⟨k, false, [], by simp [innerRun, hf0]⟩

theorem outer_first (flag : ℕ → Bool) (fail : ℕ → ℕ → ℕ → Bool) (nchan : ℕ) (ps : List ℕ)
    (is : List ℕ) (k : ℕ) :
    (outerRun flag fail nchan ps is k).1 = []
    ∨ ∃ k2 v r2, (outerRun flag fail nchan ps is k).1 = Ev.check k2 v :: r2 := by
  cases is with
  | nil => exact Or.inl rfl
  | cons i rest =>
    rcases inner_first flag fail nchan i ps k with hnil | ⟨k2, v, r2, hch⟩
    · by_cases hab : (innerRun flag fail nchan i ps k).2.2 = true
      · exact Or.inl (by simp [outerRun, hab, hnil])
      · have hab0 : (innerRun flag fail nchan i ps k).2.2 = false := by
          revert hab; cases (innerRun flag fail nchan i ps k).2.2 <;> simp
        by_cases hfl : flag (innerRun flag fail nchan i ps k).2.1 = false
        · exact Or.inr ⟨(innerRun flag fail nchan i ps k).2.1, false, [],
            by simp [outerRun, hab0, hnil, hfl]⟩
        · have hfl2 : flag (innerRun flag fail nchan i ps k).2.1 = true := by
            revert hfl; cases flag (innerRun flag fail nchan i ps k).2.1 <;> simp
          exact Or.inr ⟨(innerRun flag fail nchan i ps k).2.1, true,
            (outerRun flag fail nchan ps rest ((innerRun flag fail nchan i ps k).2.1 + 1)).1,
            by simp [outerRun, hab0, hnil, hfl2]⟩
    · right
      by_cases hab : (innerRun flag fail nchan i ps k).2.2 = true
      · exact ⟨k2, v, r2, by simp [outerRun, hab, hch]⟩
      · have hab0 : (innerRun flag fail nchan i ps k).2.2 = false := by
          revert hab; cases (innerRun flag fail nchan i ps k).2.2 <;> simp
        by_cases hfl : flag (innerRun flag fail nchan i ps k).2.1 = false
        · exact ⟨k2, v, r2 ++ [Ev.check (innerRun flag fail nchan i ps k).2.1 false],
            by simp [outerRun, hab0, hfl, hch]⟩
        · have hfl2 : flag (innerRun flag fail nchan i ps k).2.1 = true := by
            revert hfl; cases flag (innerRun flag fail nchan i ps k).2.1 <;> simp
          exact ⟨k2, v, r2 ++ Ev.check (innerRun flag fail nchan i ps k).2.1 true
              :: (outerRun flag fail nchan ps rest ((innerRun flag fail nchan i ps k).2.1 + 1)).1,
            by simp [outerRun, hab0, hfl2, hch]⟩

theorem runM_afterTrue_eq (nchan : ℕ) (t : List Ev)
    (h : t = [] ∨ ∃ k v r, t = Ev.check k v :: r) :
    (t = [] ∧ runM nchan (.afterTrue) t = some (.afterTrue))
    ∨ runM nchan (.afterTrue) t = runM nchan (.top) t := by
  rcases h with rfl | ⟨k, v, r, rfl⟩
  · exact Or.inl ⟨rfl, rfl⟩
  · right
    cases v <;> rfl

theorem outerM (flag : ℕ → Bool) (fail : ℕ → ℕ → ℕ → Bool) (nchan : ℕ) (ps : List ℕ)
    (hm : MonotoneFlag flag) :
    ∀ (is : List ℕ) (k : ℕ),
      ∃ s, runM nchan (.top) (outerRun flag fail nchan ps is k).1 = some s
        ∧ accepting s = true := by
  intro is
  induction is with
  | nil => exact fun _ => ⟨.top, rfl, rfl⟩
  | cons i rest ih =>
    intro k
    by_cases hab : (innerRun flag fail nchan i ps k).2.2 = true
    · obtain ⟨s, hs, hacc⟩ := (innerM flag fail nchan i ps k).1 hab
      refine ⟨s, ?_, hacc⟩
      have htr : (outerRun flag fail nchan ps (i :: rest) k).1
          = (innerRun flag fail nchan i ps k).1 := by
        simp [outerRun, hab]
      rw [htr]
      exact hs
    · have hab0 : (innerRun flag fail nchan i ps k).2.2 = false := by
        revert hab; cases (innerRun flag fail nchan i ps k).2.2 <;> simp
      rcases (innerM flag fail nchan i ps k).2 hab0 with htop | ⟨haf, h1k, hfl⟩
      · by_cases hfl2 : flag (innerRun flag fail nchan i ps k).2.1 = false
        · refine ⟨.afterFalse, ?_, rfl⟩
          have htr : (outerRun flag fail nchan ps (i :: rest) k).1
              = (innerRun flag fail nchan i ps k).1
                ++ [Ev.check (innerRun flag fail nchan i ps k).2.1 false] := by
            simp [outerRun, hab0, hfl2]
          rw [htr, runM_append, htop]
          rfl
        · have hfl3 : flag (innerRun flag fail nchan i ps k).2.1 = true := by
            revert hfl2; cases flag (innerRun flag fail nchan i ps k).2.1 <;> simp
          have htr : (outerRun flag fail nchan ps (i :: rest) k).1
              = (innerRun flag fail nchan i ps k).1
                ++ Ev.check (innerRun flag fail nchan i ps k).2.1 true
                  :: (outerRun flag fail nchan ps rest
                      ((innerRun flag fail nchan i ps k).2.1 + 1)).1 := by
            simp [outerRun, hab0, hfl3]
          obtain ⟨s, hs, hacc⟩ := ih ((innerRun flag fail nchan i ps k).2.1 + 1)
          have hstep : runM nchan (.top)
              (Ev.check (innerRun flag fail nchan i ps k).2.1 true
                :: (outerRun flag fail nchan ps rest
                    ((innerRun flag fail nchan i ps k).2.1 + 1)).1)
              = runM nchan (.afterTrue)
                (outerRun flag fail nchan ps rest
                  ((innerRun flag fail nchan i ps k).2.1 + 1)).1 := rfl
          rcases runM_afterTrue_eq nchan
              (outerRun flag fail nchan ps rest ((innerRun flag fail nchan i ps k).2.1 + 1)).1
              (outer_first flag fail nchan ps rest ((innerRun flag fail nchan i ps k).2.1 + 1))
            with ⟨hnil, hat⟩ | heq
          · refine ⟨.afterTrue, ?_, rfl⟩
            rw [htr, runM_append, htop]
            show runM nchan (.top)
              (Ev.check (innerRun flag fail nchan i ps k).2.1 true
                :: (outerRun flag fail nchan ps rest
                    ((innerRun flag fail nchan i ps k).2.1 + 1)).1) = some (.afterTrue)
            rw [hstep, hat]
          · refine ⟨s, ?_, hacc⟩
            rw [htr, runM_append, htop]
            show runM nchan (.top)
              (Ev.check (innerRun flag fail nchan i ps k).2.1 true
                :: (outerRun flag fail nchan ps rest
                    ((innerRun flag fail nchan i ps k).2.1 + 1)).1) = some s
            rw [hstep, heq]
            exact hs
      · have hfl2 : flag (innerRun flag fail nchan i ps k).2.1 = false := by
          by_contra hcon
          have hcon2 : flag (innerRun flag fail nchan i ps k).2.1 = true := by
            revert hcon; cases flag (innerRun flag fail nchan i ps k).2.1 <;> simp
          have := hm ((innerRun flag fail nchan i ps k).2.1 - 1)
            ((innerRun flag fail nchan i ps k).2.1) (by omega) hcon2
          rw [this] at hfl
          exact absurd hfl (by simp)
        refine ⟨.afterFalse, ?_, rfl⟩
        have htr : (outerRun flag fail nchan ps (i :: rest) k).1
            = (innerRun flag fail nchan i ps k).1
              ++ [Ev.check (innerRun flag fail nchan i ps k).2.1 false] := by
          simp [outerRun, hab0, hfl2]
        rw [htr, runM_append, haf]
        rfl

/-- C4 counterexample.  First run (flag never set): the two channel
computations of tile (0,0) are adjacent in the trace — `Projection.run`
performs no flag check between channels of a tile.  Second run (flag set
immediately after the first read, the oracle `fun k => k == 0`): the tile
whose pre-check succeeded is still fully computed and written (`write 0 0`
is in the trace) even though the flag was already set while it was
in flight — the worker does finish the in-flight tile. -/
theorem c4_cancellation_counterexample :
    (projectionRun cfgOneTile (fun _ => true) (fun _ _ _ => false)).1
      = [Ev.check 0 true, Ev.chan 0 0 0, Ev.chan 0 0 1, Ev.write 0 0, Ev.check 1 true]
    ∧ adjacentChans (projectionRun cfgOneTile (fun _ => true) (fun _ _ _ => false)).1 = true
    ∧ (projectionRun cfgOneTile (fun k => k == 0) (fun _ _ _ => false)).1
      = [Ev.check 0 true, Ev.chan 0 0 0, Ev.chan 0 0 1, Ev.write 0 0, Ev.check 1 false]
    ∧ Ev.write 0 0 ∈ (projectionRun cfgOneTile (fun k => k == 0) (fun _ _ _ => false)).1 := by
  refine ⟨by decide, by decide, by decide, by decide⟩

/-- C4 amended: for any worker and any monotone cancellation flag (set at
most once, as `self.ok` is), every `Projection.run` trace is accepted by the
`mstep` state machine, i.e.: the worker reads the flag before each
(lonIdx, latIdx) tile and once more after each longitude row; channel
computations and the tile write occur only immediately after a check that
read true, with all channels of a tile consecutive (no check between
channels) and a completed tile written at once; and after a check reads
false, nothing but further false checks occurs — no new tile is started,
but the in-flight tile was finished.  An exception in a channel ends the
trace at an accepting state (the worker dies, see C3). -/
theorem c4_cancellation_tile_granularity (cfg : ProjConfig) (flag : ℕ → Bool)
    (fail : ℕ → ℕ → ℕ → Bool) (hm : MonotoneFlag flag) :
    traceAccepts cfg.dataShape.2.2 (projectionRun cfg flag fail).1 = true := by
  obtain ⟨s, hs, hacc⟩ :=
    outerM flag fail cfg.dataShape.2.2 (List.range cfg.lat.length) hm cfg.indices 0
  show (match runM cfg.dataShape.2.2 (.top)
      (outerRun flag fail cfg.dataShape.2.2 (List.range cfg.lat.length) cfg.indices 0).1 with
    | some s => accepting s
    | none => false) = true
  rw [hs]
  exact hacc

/-- Witness for C4: the single-tile worker with the flag set right after the
first read. -/
theorem c4_cancellation_tile_granularity_witness :
    traceAccepts cfgOneTile.dataShape.2.2
      (projectionRun cfgOneTile (fun k => k == 0) (fun _ _ _ => false)).1 = true :=
  c4_cancellation_tile_granularity cfgOneTile (fun k => k == 0) (fun _ _ _ => false)
    (fun j k hjk hk => by
      simp only [beq_iff_eq] at hk ⊢
      omega)

/-- C6 counterexample: the "increasing" check of `interp` compares only the
axis end points, so the non-monotonic axis xin = [0, 5, 2, 10] (which is
neither strictly increasing nor even nondecreasing) passes the check and
`interp` returns a result instead of failing — the claimed
raises-iff-not-increasing equivalence is false. -/
theorem c6_raises_iff_counterexample :
    strictlyIncreasing [0, 5, 2, 10] = false
    ∧ nondecreasing [0, 5, 2, 10] = false
    ∧ isOkE (interp (fun _ _ _ => []) (fun r c => (r * 10 + c : ℚ))
        [0, 5, 2, 10] [0, 1] [[1]] [[1]] false 1 false) = true := by
  refine ⟨by decide, by decide, by decide⟩

/-- C6 amended: with checkbounds disabled and both axes of length ≥ 2,
`interp` fails exactly when the end-point check fails (xin[-1] < xin[0] or
yin[-1] < yin[0] — interior decreases are not detected), when the target
grids differ in shape, when the order is outside {0, 1, 3}, or when order 3
is requested with its backend unavailable; for every other input it returns
a result without error. -/
theorem c6_interp_raises_iff
    (mapCoords : (ℕ → ℕ → ℚ) → List (List ℚ) → List (List ℚ) → List (List ℚ))
    (datain : ℕ → ℕ → ℚ) (xin yin : List ℚ) (xout yout : List (List ℚ))
    (order : ℤ) (scipyAvailable : Bool)
    (hx : 2 ≤ xin.length) (hy : 2 ≤ yin.length) :
    isOkE (interp mapCoords datain xin yin xout yout false order scipyAvailable) = false
    ↔ (xin.getD (xin.length - 1) 0 < xin.getD 0 0
       ∨ yin.getD (yin.length - 1) 0 < yin.getD 0 0
       ∨ shapeOf xout ≠ shapeOf yout
       ∨ (order ≠ 0 ∧ order ≠ 1 ∧ order ≠ 3)
       ∨ (order = 3 ∧ scipyAvailable = false)) := by
  have hne : ¬(xin.isEmpty ∨ yin.isEmpty) := by
    rintro (h | h)
    · rw [List.isEmpty_iff] at h; simp [h] at hx
    · rw [List.isEmpty_iff] at h; simp [h] at hy
  unfold interp
  rw [if_neg hne]
  by_cases h1 : xin.getD (xin.length - 1) 0 - xin.getD 0 0 < 0
      ∨ yin.getD (yin.length - 1) 0 - yin.getD 0 0 < 0
  · rw [if_pos h1]
    refine iff_of_true rfl ?_
    rcases h1 with h | h
    · exact Or.inl (by linarith)
    · exact Or.inr (Or.inl (by linarith))
  · rw [if_neg h1]
    push_neg at h1
    by_cases h2 : shapeOf xout ≠ shapeOf yout
    · rw [if_pos h2]
      exact iff_of_true rfl (Or.inr (Or.inr (Or.inl h2)))
    · rw [if_neg h2]
      push_neg at h2
      rw [if_neg (by simp : ¬((false = true) ∧ xout.flatten.isEmpty = true))]
      rw [if_neg (by simp : ¬((false = true) ∧ (minD xout.flatten < minD xin
        ∨ maxD xout.flatten > maxD xin ∨ minD yout.flatten < minD yin
        ∨ maxD yout.flatten > maxD yin)))]
      rw [if_neg (by omega : ¬(xin.length < 2))]
      rw [if_neg (fun h => by omega : ¬(maxD (diffs xin) - minD (diffs xin) < 1 / 10000
        ∧ yin.length < 2))]
      by_cases h3 : order = 1 ∨ order = 0
      · rw [if_pos h3]
        refine iff_of_false (by simp [isOkE]) ?_
        rintro (h | h | h | ⟨h4, h5, _⟩ | ⟨h4, _⟩)
        · exact absurd h1.1 (by linarith)
        · exact absurd h1.2 (by linarith)
        · exact h h2
        · rcases h3 with h3 | h3
          · exact h5 h3
          · exact h4 h3
        · rcases h3 with h3 | h3 <;> omega
      · rw [if_neg h3]
        push_neg at h3
        by_cases h4 : order = 3
        · rw [if_pos h4]
          cases scipyAvailable with
          | true =>
            rw [if_pos rfl]
            refine iff_of_false (by simp [isOkE]) ?_
            rintro (h | h | h | ⟨_, _, h5⟩ | ⟨_, h5⟩)
            · exact absurd h1.1 (by linarith)
            · exact absurd h1.2 (by linarith)
            · exact h h2
            · exact h5 h4
            · exact absurd h5 (by simp)
          | false =>
            rw [if_neg (by simp : ¬(false = true))]
            exact iff_of_true rfl (Or.inr (Or.inr (Or.inr (Or.inr ⟨h4, rfl⟩))))
        · rw [if_neg h4]
          exact iff_of_true rfl (Or.inr (Or.inr (Or.inr (Or.inl ⟨h3.2, h3.1, h4⟩))))

/-- Witness for C6 at a concrete valid input: increasing axes of length 2,
matching 1 x 1 target grids, order 1 — no error, and none of the failure
conditions holds. -/
theorem c6_interp_raises_iff_witness :
    (2 ≤ ([0, 1] : List ℚ).length)
    ∧ (isOkE (interp (fun _ _ _ => []) (fun r c => (r * 10 + c : ℚ))
        [0, 1] [0, 1] [[5]] [[7]] false 1 false) = false
      ↔ (([0, 1] : List ℚ).getD (([0, 1] : List ℚ).length - 1) 0 < ([0, 1] : List ℚ).getD 0 0
         ∨ ([0, 1] : List ℚ).getD (([0, 1] : List ℚ).length - 1) 0 < ([0, 1] : List ℚ).getD 0 0
         ∨ shapeOf [[5]] ≠ shapeOf [[7]]
         ∨ ((1 : ℤ) ≠ 0 ∧ (1 : ℤ) ≠ 1 ∧ (1 : ℤ) ≠ 3)
         ∨ ((1 : ℤ) = 3 ∧ false = false))) :=
  ⟨by decide,
   c6_interp_raises_iff (fun _ _ _ => []) (fun r c => (r * 10 + c : ℚ))
     [0, 1] [0, 1] [[5]] [[7]] 1 false (by decide) (by decide)⟩

theorem strictlyIncreasing_pairwise : ∀ (l : List ℚ),
    strictlyIncreasing l = true → l.Pairwise (· < ·)
  | [], _ => List.Pairwise.nil
  | [a], _ => by simp
  | a :: b :: rest, h => by
    rw [strictlyIncreasing] at h
    rw [Bool.and_eq_true, decide_eq_true_iff] at h
    have h2 := strictlyIncreasing_pairwise (b :: rest) h.2
    refine List.Pairwise.cons ?_ h2
    intro x hx
    rcases List.mem_cons.mp hx with rfl | hx
    · exact h.1
    · exact lt_trans h.1 (List.rel_of_pairwise_cons h2 hx)

theorem pairwise_getD_lt (l : List ℚ) (h : l.Pairwise (· < ·)) {i j : ℕ}
    (hij : i < j) (hj : j < l.length) : l.getD i 0 < l.getD j 0 := by
  have hi : i < l.length := lt_trans hij hj
  rw [List.getD_eq_getElem l 0 hi, List.getD_eq_getElem l 0 hj]
  exact List.pairwise_iff_getElem.mp h i j hi hj hij

theorem mem_le_last (l : List ℚ) (h : l.Pairwise (· < ·)) (hne : 1 ≤ l.length) :
    ∀ a ∈ l, a ≤ l.getD (l.length - 1) 0 := by
  intro a ha
  obtain ⟨i, hi, rfl⟩ := List.mem_iff_getElem.mp ha
  rcases Nat.lt_or_ge i (l.length - 1) with hlt | hge
  · have := pairwise_getD_lt l h hlt (by omega)
    rw [List.getD_eq_getElem l 0 hi] at this
    exact le_of_lt this
  · have hieq : i = l.length - 1 := by omega
    subst hieq
    rw [List.getD_eq_getElem l 0 hi]

theorem countP_lt_of_gt_last (l : List ℚ) (h : l.Pairwise (· < ·)) (hne : 1 ≤ l.length)
    (v : ℚ) (hv : l.getD (l.length - 1) 0 < v) :
    l.countP (fun t => decide (t < v)) = l.length := by
  rw [List.countP_eq_length]
  intro a ha
  simp only [decide_eq_true_iff]
  exact lt_of_le_of_lt (mem_le_last l h hne a ha) hv

theorem countP_lt_last : ∀ (l : List ℚ), l.Pairwise (· < ·) → 1 ≤ l.length →
    l.countP (fun t => decide (t < l.getD (l.length - 1) 0)) = l.length - 1
  | [], _, hne => by simp at hne
  | [a], _, _ => by simp [List.countP_cons]
  | a :: b :: rest, h, _ => by
    have hlast : (a :: b :: rest).getD ((a :: b :: rest).length - 1) 0
        = (b :: rest).getD ((b :: rest).length - 1) 0 := by
      simp [List.getD_cons_succ]
    have h2 : (b :: rest).Pairwise (· < ·) := List.Pairwise.sublist (List.sublist_cons_self a _) h
    have hmem : (b :: rest).getD ((b :: rest).length - 1) 0 ∈ (b :: rest) := by
      have hlt : (b :: rest).length - 1 < (b :: rest).length := by simp
      rw [List.getD_eq_getElem _ 0 hlt]
      exact List.getElem_mem hlt
    have ha : a < (b :: rest).getD ((b :: rest).length - 1) 0 :=
      List.rel_of_pairwise_cons h hmem
    rw [hlast, List.countP_cons]
    rw [countP_lt_last (b :: rest) h2 (by simp)]
    have ha2 : a < (b :: rest)[rest.length] := by
      have hlt : (b :: rest).length - 1 < (b :: rest).length := by simp
      rw [List.getD_eq_getElem _ 0 hlt] at ha
      simpa using ha
    simp [ha2]

theorem npAround_intCast (z : ℤ) : npAround (z : ℚ) = z := by
  unfold npAround
  rw [Int.floor_intCast]
  norm_num

theorem pyTrunc_intCast (z : ℤ) : pyTrunc (z : ℚ) = z := by
  unfold pyTrunc
  split
  · exact Int.floor_intCast z
  · exact Int.ceil_intCast z

/-- Any target value at or above the last axis entry is clamped to the top
index `len - 1`, through both the linear-scaling and the searchsorted
paths. -/
theorem clippedCoord_last (axis : List ℚ) (regular : Bool) (v : ℚ)
    (hlen : 2 ≤ axis.length) (hinc : axis.Pairwise (· < ·))
    (hv : axis.getD (axis.length - 1) 0 ≤ v) :
    clippedCoord axis regular v = (axis.length : ℚ) - 1 := by
  have ha0 : axis.getD 0 0 < axis.getD (axis.length - 1) 0 :=
    pairwise_getD_lt axis hinc (by omega) (by omega)
  have hn1 : (0 : ℚ) ≤ (axis.length : ℚ) - 1 := by
    have : (1 : ℚ) ≤ (axis.length : ℚ) := by exact_mod_cast (by omega : 1 ≤ axis.length)
    linarith
  unfold clippedCoord npClip rawCoord
  cases regular with
  | true =>
    rw [if_pos rfl]
    have hd : (0 : ℚ) < axis.getD (axis.length - 1) 0 - axis.getD 0 0 := by linarith
    have hraw : ((axis.length : ℚ) - 1)
        ≤ ((axis.length : ℚ) - 1) * (v - axis.getD 0 0)
          / (axis.getD (axis.length - 1) 0 - axis.getD 0 0) := by
      rw [mul_div_assoc]
      nth_rewrite 1 [← mul_one ((axis.length : ℚ) - 1)]
      apply mul_le_mul_of_nonneg_left _ hn1
      rw [le_div_iff₀ hd]
      linarith
    rw [max_eq_left (le_trans hn1 hraw), min_eq_right hraw]
  | false =>
    rw [if_neg (by simp)]
    rcases eq_or_lt_of_le hv with heq | hlt
    · -- v equals the last axis entry
      have hss : searchsortedLeft axis v = axis.length - 1 := by
        unfold searchsortedLeft
        rw [← heq]
        exact countP_lt_last axis hinc (by omega)
      rw [hss]
      rw [if_neg (by omega : ¬((axis.length - 1 : ℕ) : ℤ) - 1 < 0)]
      rw [if_neg (by omega : ¬((axis.length : ℤ) - 1 ≤ ((axis.length - 1 : ℕ) : ℤ) - 1))]
      have htn : (((axis.length - 1 : ℕ) : ℤ) - 1).toNat = axis.length - 2 := by omega
      rw [htn]
      have htn2 : axis.length - 2 + 1 = axis.length - 1 := by omega
      rw [htn2]
      have hadj : axis.getD (axis.length - 2) 0 < axis.getD (axis.length - 1) 0 :=
        pairwise_getD_lt axis hinc (by omega) (by omega)
      have hdenom : (0 : ℚ) < axis.getD (axis.length - 1) 0 - axis.getD (axis.length - 2) 0 := by
        linarith
      have hfrac : (v - axis.getD (axis.length - 2) 0)
          / (axis.getD (axis.length - 1) 0 - axis.getD (axis.length - 2) 0) = 1 := by
        rw [← heq]
        exact div_self (by linarith)
      rw [hfrac]
      have hcast : ((((axis.length - 1 : ℕ) : ℤ) - 1 : ℤ) : ℚ) + 1 = (axis.length : ℚ) - 1 := by
        have : ((axis.length - 1 : ℕ) : ℤ) = (axis.length : ℤ) - 1 := by omega
        rw [this]
        push_cast
        ring
      rw [hcast]
      rw [max_eq_left hn1, min_eq_right (le_refl _)]
    · -- v strictly above the last axis entry
      have hss : searchsortedLeft axis v = axis.length :=
        countP_lt_of_gt_last axis hinc (by omega) v hlt
      rw [hss]
      rw [if_neg (by omega : ¬((axis.length : ℕ) : ℤ) - 1 < 0)]
      rw [if_pos (by omega : (axis.length : ℤ) - 1 ≤ ((axis.length : ℕ) : ℤ) - 1)]
      have hle : ((axis.length : ℚ) - 1) ≤ (axis.length : ℚ) := by linarith
      rw [max_eq_left (le_trans hn1 hle), min_eq_right hle]

/-- At a target point at or beyond the top-right corner of the source grid,
orders 0 and 1 both return the corner source value. -/
theorem interpPoint_corner (datain : ℕ → ℕ → ℚ) (xin yin : List ℚ) (order : ℤ) (x y : ℚ)
    (hx2 : 2 ≤ xin.length) (hy2 : 2 ≤ yin.length)
    (hxi : xin.Pairwise (· < ·)) (hyi : yin.Pairwise (· < ·))
    (hx : xin.getD (xin.length - 1) 0 ≤ x) (hy : yin.getD (yin.length - 1) 0 ≤ y)
    (hord : order = 0 ∨ order = 1) :
    interpPoint datain xin yin order x y = datain (yin.length - 1) (xin.length - 1) := by
  unfold interpPoint
  show (if order = 1 then
      bilinearPoint datain xin.length yin.length
        (clippedCoord xin (regularPath xin yin) x) (clippedCoord yin (regularPath xin yin) y)
    else
      nearestPoint datain
        (clippedCoord xin (regularPath xin yin) x) (clippedCoord yin (regularPath xin yin) y))
    = datain (yin.length - 1) (xin.length - 1)
  rw [clippedCoord_last xin _ x hx2 hxi hx, clippedCoord_last yin _ y hy2 hyi hy]
  have hxcast : ((xin.length : ℚ) - 1) = (((xin.length : ℤ) - 1 : ℤ) : ℚ) := by push_cast; ring
  have hycast : ((yin.length : ℚ) - 1) = (((yin.length : ℤ) - 1 : ℤ) : ℚ) := by push_cast; ring
  rcases hord with rfl | rfl
  · rw [if_neg (by norm_num : ¬(0 : ℤ) = 1)]
    unfold nearestPoint
    rw [hxcast, hycast, npAround_intCast, npAround_intCast]
    congr 1 <;> omega
  · rw [if_pos rfl]
    unfold bilinearPoint
    have hxt : pyTrunc ((xin.length : ℚ) - 1) = (xin.length : ℤ) - 1 := by
      rw [hxcast, pyTrunc_intCast]
    have hyt : pyTrunc ((yin.length : ℚ) - 1) = (yin.length : ℤ) - 1 := by
      rw [hycast, pyTrunc_intCast]
    simp only [hxt, hyt]
    have hdx : ((xin.length : ℚ) - 1) - (((xin.length : ℤ) - 1 : ℤ) : ℚ) = 0 := by
      push_cast; ring
    have hdy : ((yin.length : ℚ) - 1) - (((yin.length : ℤ) - 1 : ℤ) : ℚ) = 0 := by
      push_cast; ring
    rw [hdx, hdy]
    have hxn : ((xin.length : ℤ) - 1).toNat = xin.length - 1 := by omega
    have hyn : ((yin.length : ℤ) - 1).toNat = yin.length - 1 := by omega
    rw [hxn, hyn]
    ring

/-- C7: with checkbounds disabled (the default), for strictly increasing
source axes of length ≥ 2 and target grids of equal shape, `interp` with
order 0 or 1 never raises — whatever the target coordinates, in or out of
the source range; every computed source-grid coordinate is clamped to
[0, len-1]; and at a target at or beyond the top-right corner of the source
range the output equals the source value on the nearest boundary (the
corner pixel). -/
theorem c7_clamping_policy
    (mapCoords : (ℕ → ℕ → ℚ) → List (List ℚ) → List (List ℚ) → List (List ℚ))
    (datain : ℕ → ℕ → ℚ) (xin yin : List ℚ) (xout yout : List (List ℚ))
    (order : ℤ) (scipyAvailable : Bool)
    (hx : 2 ≤ xin.length) (hy : 2 ≤ yin.length)
    (hxi : strictlyIncreasing xin = true) (hyi : strictlyIncreasing yin = true)
    (hsh : shapeOf xout = shapeOf yout) (hord : order = 0 ∨ order = 1) :
    interp mapCoords datain xin yin xout yout false order scipyAvailable
      = .ok (map2 (interpPoint datain xin yin order) xout yout)
    ∧ (∀ (regular : Bool) (v : ℚ),
        0 ≤ clippedCoord xin regular v ∧ clippedCoord xin regular v ≤ (xin.length : ℚ) - 1)
    ∧ (∀ x y, xin.getD (xin.length - 1) 0 ≤ x → yin.getD (yin.length - 1) 0 ≤ y →
        interpPoint datain xin yin order x y = datain (yin.length - 1) (xin.length - 1)) := by
  have hxp := strictlyIncreasing_pairwise xin hxi
  have hyp := strictlyIncreasing_pairwise yin hyi
  have hxe : xin.getD 0 0 < xin.getD (xin.length - 1) 0 :=
    pairwise_getD_lt xin hxp (by omega) (by omega)
  have hye : yin.getD 0 0 < yin.getD (yin.length - 1) 0 :=
    pairwise_getD_lt yin hyp (by omega) (by omega)
  have hn1 : (0 : ℚ) ≤ (xin.length : ℚ) - 1 := by
    have : (1 : ℚ) ≤ (xin.length : ℚ) := by exact_mod_cast (by omega : 1 ≤ xin.length)
    linarith
  refine ⟨?_, ?_, ?_⟩
  · unfold interp
    rw [if_neg (by
      rintro (h | h)
      · rw [List.isEmpty_iff] at h; simp [h] at hx
      · rw [List.isEmpty_iff] at h; simp [h] at hy)]
    rw [if_neg (by push_neg; constructor <;> linarith)]
    rw [if_neg (by simpa using hsh)]
    rw [if_neg (by simp : ¬((false = true) ∧ xout.flatten.isEmpty = true))]
    rw [if_neg (by simp : ¬((false = true) ∧ (minD xout.flatten < minD xin
      ∨ maxD xout.flatten > maxD xin ∨ minD yout.flatten < minD yin
      ∨ maxD yout.flatten > maxD yin)))]
    rw [if_neg (by omega : ¬(xin.length < 2))]
    rw [if_neg (fun h => by omega : ¬(maxD (diffs xin) - minD (diffs xin) < 1 / 10000
      ∧ yin.length < 2))]
    rw [if_pos (hord.symm)]
  · intro regular v
    unfold clippedCoord npClip
    constructor
    · exact le_min (le_trans (le_refl 0) (le_max_right _ 0)) hn1
    · exact min_le_right _ _
  · intro x y hxv hyv
    exact interpPoint_corner datain xin yin order x y hx hy hxp hyp hxv hyv hord

/-- Witness for C7 at axes [0, 1] x [0, 1], target point (5, 7) far outside
the source range, order 1. -/
theorem c7_clamping_policy_witness :
    strictlyIncreasing ([0, 1] : List ℚ) = true
    ∧ interp (fun _ _ _ => []) (fun r c => (r * 10 + c : ℚ))
        [0, 1] [0, 1] [[5]] [[7]] false 1 false
      = .ok (map2 (interpPoint (fun r c => (r * 10 + c : ℚ)) [0, 1] [0, 1] 1) [[5]] [[7]])
    ∧ interpPoint (fun r c => (r * 10 + c : ℚ)) [0, 1] [0, 1] 1 5 7
      = (fun r c => (r * 10 + c : ℚ)) 1 1 :=
  ⟨by decide,
   (c7_clamping_policy (fun _ _ _ => []) (fun r c => (r * 10 + c : ℚ))
      [0, 1] [0, 1] [[5]] [[7]] 1 false (by decide) (by decide) (by decide) (by decide)
      (by decide) (Or.inr rfl)).1,
   (c7_clamping_policy (fun _ _ _ => []) (fun r c => (r * 10 + c : ℚ))
      [0, 1] [0, 1] [[5]] [[7]] 1 false (by decide) (by decide) (by decide) (by decide)
      (by decide) (Or.inr rfl)).2.2 5 7 (by decide) (by decide)⟩
